import Mathlib

/-!
Verification of the team/game rating engine (NCAA.py): graph model,
dataset-cleaning transforms, record statistics, RPI-family opponent
metrics, the KRACH fixed-point solver and derived strength metrics.

The Python objects are shallowly embedded: teams and games are records,
object references become stable integer ids (the source keys every team
and game dict by id), Python sets become `Finset`/`Multiset`, float
arithmetic is modelled exactly over `ℚ` (and over `ℝ` where the source
takes real roots), and a raised exception becomes an explicit error value
(`Bool` flag or `Option`).
-/

namespace NCAA

/-- Embeds the `Game` class: id, optional timestamp, home/away team ids,
scores, overtime count, neutral-site flag.  The `boxscore` field is not
used by any verified operation and is omitted. -/
structure Game where
  gameid : Nat
  time : Option Int
  hometeam : Nat
  homescore : Nat
  awayteam : Nat
  awayscore : Nat
  ots : Nat
  neutralsite : Bool
deriving DecidableEq

/-- Embeds `Game.winner`: the team with the strictly higher score, or no
team on equal scores (Python falls off the end of the if/elif and
returns `None`). -/
def Game.winner (g : Game) : Option Nat :=
  if g.homescore > g.awayscore then some g.hometeam
  else if g.awayscore > g.homescore then some g.awayteam
  else none

/-- Embeds `Game.loser`: mirror image of `Game.winner`. -/
def Game.loser (g : Game) : Option Nat :=
  if g.homescore > g.awayscore then some g.awayteam
  else if g.awayscore > g.homescore then some g.hometeam
  else none

/-- Embeds the `Team` class: id, name, tier flag, conference, the set of
games played, and the `winslosses` partition (`winslosses[0]` = wins,
`winslosses[1]` = losses). -/
structure Team where
  teamid : Nat
  fullname : String
  isd1 : Bool
  conference : Option String
  games : Finset Game
  wins : Finset Game
  losses : Finset Game
deriving DecidableEq

/-- Embeds `Team.addgame`.  The source mutates `self.games` FIRST
(`self.games.add(game)`), then checks that the team is a participant and
raises `ValueError` if not, and only then classifies the game into
`winslosses[0]` or `winslosses[1]` by `game.winner() is self`.  The
returned `Bool` is `true` exactly when the `ValueError` is raised; the
returned `Team` is the object's state after the call, including the
mutation that precedes the raise. -/
def Team.addgame (t : Team) (g : Game) : Team × Bool :=
  let t1 : Team := { t with games := insert g t.games }
  if t.teamid = g.hometeam ∨ t.teamid = g.awayteam then
    if g.winner = some t.teamid then
      ({ t1 with wins := insert g t1.wins }, false)
    else
      ({ t1 with losses := insert g t1.losses }, false)
  else
    (t1, true)

/-- Embeds `Team.opponent`: the other participant of a game, or an error
(`none`, a raised `ValueError` in the source) when the team did not play
in the game. -/
def Team.opponentId (t : Team) (g : Game) : Option Nat :=
  if g.hometeam = t.teamid then some g.awayteam
  else if g.awayteam = t.teamid then some g.hometeam
  else none

/-- The game filter used by `cleanexistingties`: `if game.winner()` keeps
exactly the games with a decided winner. -/
def keepDecided (g : Game) : Bool := (g.winner).isSome

/- Concrete inputs used by counterexamples and witnesses. -/

/-- A team (id 5) that is not a participant of `gameParty12`. -/
def bystander : Team := ⟨5, "X", true, none, ∅, ∅, ∅⟩

/-- A decided game between teams 1 and 2. -/
def gameParty12 : Game := ⟨9, none, 1, 2, 2, 1, 0, false⟩

/-- A tied game between teams 1 and 2 (3–3). -/
def tiedGame12 : Game := ⟨7, none, 1, 3, 2, 3, 0, false⟩

/-- A participant team (id 1) of `tiedGame12`, with no prior games. -/
def teamOne : Team := ⟨1, "A", true, none, ∅, ∅, ∅⟩

/-! Dataset transforms.  Each transform rebuilds an independent graph:
fresh `Team` objects (same id/name/flag/conference, empty game sets),
a filtered list of game copies, then `addgame` replayed for the home and
away team of every kept game. -/

/-- A graph: the `teams` dict and the `games` dict of the source,
as lists of records (dict keys are the stable ids inside the records). -/
structure Graph where
  teams : List Team
  games : List Game
deriving DecidableEq

/-- A fresh copy of a team, as the transforms build them:
`Team(team.teamid, team.fullname, isd1=..., conference=...)` — same
static fields, empty `games` and `winslosses`. -/
def freshTeam (t : Team) : Team :=
  { t with games := ∅, wins := ∅, losses := ∅ }

/-- The static fields of a team (id, name, tier flag, conference) — the
data a transform copies into its fresh teams. -/
def statics (t : Team) : Nat × String × Bool × Option String :=
  (t.teamid, t.fullname, t.isd1, t.conference)

/-- Replays `game.hometeam.addgame(game); game.awayteam.addgame(game)`
over the team table: the team whose id is the game's home id receives
the game, then the team whose id is the away id does. -/
def stepGame (ts : List Team) (g : Game) : List Team :=
  ts.map (fun t =>
    let t1 := if t.teamid = g.hometeam then (t.addgame g).1 else t
    if t1.teamid = g.awayteam then (t1.addgame g).1 else t1)

/-- Replays `addgame` for every kept game (the `for game in games`
loops of the transforms). -/
def rebuild (ts : List Team) (gs : List Game) : List Team :=
  gs.foldl stepGame ts

/-- Embeds `cleanexistingties`: fresh teams, games with a decided winner,
`addgame` replay, and (unlike the other transforms) dropping teams whose
game set stayed empty. -/
def cleanexistingties (G : Graph) : Graph :=
  let teams0 := G.teams.map freshTeam
  let games := G.games.filter keepDecided
  { teams := (rebuild teams0 games).filter (fun t => !(decide (t.games = ∅))),
    games := games }

/-- Looks up the `isd1` flag of the team with a given id, as dereferencing
the team object does in the source. -/
def isd1Of (ts : List Team) (i : Nat) : Bool :=
  match ts.find? (fun t => t.teamid == i) with
  | some t => t.isd1
  | none => false

/-- The game filter of `cleannonD1`:
`game.winner() and game.winner().isd1 and game.loser().isd1`. -/
def keepGameNonD1 (ts : List Team) (g : Game) : Bool :=
  match g.winner, g.loser with
  | some w, some l => isd1Of ts w && isd1Of ts l
  | _, _ => false

/-- Embeds `cleannonD1`: keep only `isd1` teams (fresh copies), keep only
decided games whose winner and loser are both `isd1`, replay `addgame`.
The source does NOT drop teams left without games here. -/
def cleannonD1 (G : Graph) : Graph :=
  let teams0 := (G.teams.filter (fun t => t.isd1)).map freshTeam
  let games := G.games.filter (keepGameNonD1 G.teams)
  { teams := rebuild teams0 games, games := games }

/-- Embeds `cleanbeforetime`: keep games whose time is set and is `≥` the
bound (`game.time and game.time >= time`); all teams are copied fresh and
none are dropped. -/
def cleanbeforetime (b : Int) (G : Graph) : Graph :=
  let teams0 := G.teams.map freshTeam
  let games := G.games.filter (fun g =>
    match g.time with
    | some τ => decide (b ≤ τ)
    | none => false)
  { teams := rebuild teams0 games, games := games }

/-- Embeds `cleanaftertime`: keep games whose time is set and is `<` the
bound. -/
def cleanaftertime (b : Int) (G : Graph) : Graph :=
  let teams0 := G.teams.map freshTeam
  let games := G.games.filter (fun g =>
    match g.time with
    | some τ => decide (τ < b)
    | none => false)
  { teams := rebuild teams0 games, games := games }

/- Structural lemmas: `addgame` and the rebuild loop never touch a team's
static fields, and a fresh copy of a rebuilt team is the fresh copy of
the original. -/

/-- Input with one top-tier team (id 1) whose only game is against a
non-top-tier team (id 2): `cleannonD1` filters the game out but keeps
team 1 with an empty game set. -/
def mixedTierGraph : Graph :=
  { teams := [⟨1, "A", true, none, {gameParty12}, {gameParty12}, ∅⟩,
              ⟨2, "B", false, none, {gameParty12}, ∅, {gameParty12}⟩],
    games := [gameParty12] }

/-! Record statistics and RPI-family opponent metrics.  Team objects in
the live graph reference each other directly; the embedding keeps a
tier environment `d1 : Nat → Bool` (the opponent's `isd1` flag) and a
team environment `env : Nat → Team` (dereferencing a participant id to
its team object) where the source follows an object reference. -/

/-- Whether the opponent of `g` (from `t`'s perspective) is top-tier:
`self.opponent(game).isd1`. -/
def Team.oppIsD1 (d1 : Nat → Bool) (t : Team) (g : Game) : Bool :=
  match t.opponentId g with
  | some o => d1 o
  | none => false

/-- Embeds `D1winslosses()[0]`: the wins against top-tier opponents. -/
def Team.D1wins (d1 : Nat → Bool) (t : Team) : Finset Game :=
  t.wins.filter (fun g => t.oppIsD1 d1 g = true)

/-- Embeds `D1winslosses()[1]`: the losses against top-tier opponents. -/
def Team.D1losses (d1 : Nat → Bool) (t : Team) : Finset Game :=
  t.losses.filter (fun g => t.oppIsD1 d1 g = true)

/-- Embeds `Team.D1weightedwinpct` exactly as written, including the
overwriting assignments after the first classification loop: the loop
classifies each win/loss as neutral first, else home, else away, but the
source then REASSIGNS `D1homewins` and `D1homelosses` to every win/loss
with `game.hometeam is self` (neutral-site games included; the
`D1roadwins` it also builds there is dead).  Weights: away wins and home
losses 1.4 = 7/5, neutral 1.0, home wins and away losses 0.6 = 3/5. -/
def Team.D1weightedwinpct (d1 : Nat → Bool) (t : Team) : ℚ :=
  let dw := t.D1wins d1
  let dl := t.D1losses d1
  let D1neutralwins := dw.filter (fun g => g.neutralsite = true)
  let D1awaywins := dw.filter
    (fun g => g.neutralsite = false ∧ ¬ g.hometeam = t.teamid ∧ g.awayteam = t.teamid)
  let D1neutrallosses := dl.filter (fun g => g.neutralsite = true)
  let D1awaylosses := dl.filter
    (fun g => g.neutralsite = false ∧ ¬ g.hometeam = t.teamid ∧ g.awayteam = t.teamid)
  let D1homewins := dw.filter (fun g => g.hometeam = t.teamid)
  let D1homelosses := dl.filter (fun g => g.hometeam = t.teamid)
  let weightedwins : ℚ :=
    (7/5) * D1awaywins.card + (D1neutralwins.card : ℚ) + (3/5) * D1homewins.card
  let weightedlosses : ℚ :=
    (7/5) * D1homelosses.card + (D1neutrallosses.card : ℚ) + (3/5) * D1awaylosses.card
  if dw = ∅ ∧ dl = ∅ then 0 else weightedwins / (weightedwins + weightedlosses)

/-- Follows the spec's words, for comparison with `Team.D1weightedwinpct`:
every top-tier game weighted exactly once by venue — away win 1.4,
neutral win 1.0, home win 0.6; home loss 1.4, neutral loss 1.0,
away loss 0.6. -/
def specD1weightedwinpct (d1 : Nat → Bool) (t : Team) : ℚ :=
  let dw := t.D1wins d1
  let dl := t.D1losses d1
  let ww : ℚ :=
    (7/5) * (dw.filter (fun g => g.neutralsite = false ∧ g.awayteam = t.teamid)).card
    + ((dw.filter (fun g => g.neutralsite = true)).card : ℚ)
    + (3/5) * (dw.filter (fun g => g.neutralsite = false ∧ g.hometeam = t.teamid)).card
  let wl : ℚ :=
    (7/5) * (dl.filter (fun g => g.neutralsite = false ∧ g.hometeam = t.teamid)).card
    + ((dl.filter (fun g => g.neutralsite = true)).card : ℚ)
    + (3/5) * (dl.filter (fun g => g.neutralsite = false ∧ g.awayteam = t.teamid)).card
  if dw = ∅ ∧ dl = ∅ then 0 else ww / (ww + wl)

/-- Everyone is top-tier (environment for concrete scenarios that only
involve top-tier teams). -/
def allD1 : Nat → Bool := fun _ => true

/-- Team 1's neutral-site win over team 2, with team 1 as the designated
home side. -/
def neutralHomeWin : Game := ⟨20, none, 1, 5, 2, 3, 0, true⟩

/-- Team 1's regular away loss at team 3. -/
def roadLoss : Game := ⟨21, none, 3, 4, 1, 2, 0, false⟩

/-- Team 1 with exactly those two games, as `addgame` would leave it. -/
def weightedTeam : Team :=
  ⟨1, "A", true, none, {neutralHomeWin, roadLoss}, {neutralHomeWin}, {roadLoss}⟩

/-- Embeds `Team.D1winpctwithoutopponent`: top-tier win percentage with
all games against the given opponent excluded; 0 when no games remain
(the deliberate zero-policy of `winpct`-style statistics). -/
def Team.D1winpctwithoutopponent (d1 : Nat → Bool) (t : Team) (oppid : Nat) : ℚ :=
  let w := (t.D1wins d1).filter (fun g => ¬ t.opponentId g = some oppid)
  let l := (t.D1losses d1).filter (fun g => ¬ t.opponentId g = some oppid)
  if w = ∅ ∧ l = ∅ then 0 else (w.card : ℚ) / ((w.card : ℚ) + (l.card : ℚ))

/-- Embeds `Team.D1opponents`: the list (one entry per game, duplicates
kept) of top-tier opponent ids. -/
def Team.D1opponents (d1 : Nat → Bool) (t : Team) : Multiset Nat :=
  t.games.val.filterMap (fun g =>
    (t.opponentId g).bind (fun o => if d1 o then some o else none))

/-- Embeds `statistics.mean`: the arithmetic mean of a collection, or an
error (`StatisticsError` in the source, `none` here) when it is empty. -/
def pymean (m : Multiset ℚ) : Option ℚ :=
  if m = 0 then none else some (m.sum / (Multiset.card m : ℚ))

/-- Embeds `Team.OWP`: mean over the team's top-tier opponents (counted
per game) of that opponent's top-tier win percentage with games against
this team excluded.  `none` is the raised `StatisticsError` on an empty
opponent list. -/
def Team.OWP (d1 : Nat → Bool) (env : Nat → Team) (t : Team) : Option ℚ :=
  pymean ((t.D1opponents d1).map
    (fun o => (env o).D1winpctwithoutopponent d1 t.teamid))

/-- Sequences a collection of possibly-failed values: a single failure
(a raised exception inside the list comprehension) fails the whole
collection. -/
def msequence (m : Multiset (Option ℚ)) : Option (Multiset ℚ) :=
  if none ∈ m then none else some (m.filterMap id)

/-- Embeds `Team.OOWP`: mean of the opponents' `OWP` values; any raised
error inside the comprehension propagates, and the empty opponent list
raises in `mean`. -/
def Team.OOWP (d1 : Nat → Bool) (env : Nat → Team) (t : Team) : Option ℚ :=
  match msequence ((t.D1opponents d1).map (fun o => Team.OWP d1 env (env o))) with
  | none => none
  | some l => pymean l

/-! Derived strength metrics over solved ratings.  Ratings are an exact
rational-valued mapping `Nat → ℚ`; the geometric mean (`scipy`'s
`gmean`) takes a real root, so it lands in `ℝ`. -/

/-- Geometric mean of a collection of rationals: the `card`-th real root
of the product (`gmean` from `scipy.stats.mstats`). -/
noncomputable def gmeanQ (m : Multiset ℚ) : ℝ :=
  ((m.map (fun q => (q : ℝ))).prod) ^ ((Multiset.card m : ℝ)⁻¹)

/-- The list `sos` feeds to `gmean`: one rating entry per game whose
opponent is top-tier
(`[krachratings[team.opponent(game).teamid] for game in team.games if team.opponent(game).isd1]`). -/
def Team.sosEntries (krachratings : Nat → ℚ) (d1 : Nat → Bool) (t : Team) : Multiset ℚ :=
  t.games.val.filterMap (fun g =>
    (t.opponentId g).bind (fun o => if d1 o then some (krachratings o) else none))

/-- Embeds `sos`: geometric mean of the per-game top-tier opponent
ratings. -/
noncomputable def sos (d1 : Nat → Bool) (krachratings : Nat → ℚ) (t : Team) : ℝ :=
  gmeanQ (t.sosEntries krachratings d1)

/-- The team's distinct top-tier opponents (each id once). -/
def Team.D1oppSet (d1 : Nat → Bool) (t : Team) : Multiset Nat :=
  (t.D1opponents d1).dedup

/-- Follows the spec's words, for comparison with `sos`: geometric mean
of the solved ratings of the team's top-tier opponents with each
distinct opponent counted exactly once. -/
noncomputable def sosSpec (d1 : Nat → Bool) (krachratings : Nat → ℚ) (t : Team) : ℝ :=
  gmeanQ ((t.D1oppSet d1).map krachratings)

/-- Team 1's first win over team 2 (home). -/
def repeatGameOne : Game := ⟨31, none, 1, 2, 2, 0, 0, false⟩

/-- Team 1's second win over team 2 (away). -/
def repeatGameTwo : Game := ⟨32, none, 2, 1, 1, 3, 0, false⟩

/-- Team 1's win over team 3. -/
def singleGameThree : Game := ⟨33, none, 1, 5, 3, 1, 0, false⟩

/-- Team 1 with two games against team 2 and one against team 3. -/
def scheduleTeam : Team :=
  ⟨1, "A", true, none, {repeatGameOne, repeatGameTwo, singleGameThree},
   {repeatGameOne, repeatGameTwo, singleGameThree}, ∅⟩

/-- Team 1 with one game against each of teams 2 and 3. -/
def noRepeatTeam : Team :=
  ⟨1, "A", true, none, {repeatGameOne, singleGameThree},
   {repeatGameOne, singleGameThree}, ∅⟩

/-- Ratings for the scenarios: team 2 rates 4, everyone else 1. -/
def ratingsFourOne : Nat → ℚ := fun n => if n = 2 then 4 else 1

/-- Embeds `rrwp`: for a rated team `t`, the mean over every OTHER key of
the ratings dict of `rating[t]/(rating[t]+rating[o])`, dividing by
`len(krachratings) - 1`. -/
def rrwp (ids : Finset Nat) (r : Nat → ℚ) (t : Nat) : ℚ :=
  (∑ o in ids.filter (fun o => o ≠ t), r t / (r t + r o)) / ((ids.card : ℚ) - 1)

/-! The KRACH fixed-point solver (`calckrachratings`).  Before the loop
the source precomputes, per top-tier team, its victory points
(`victorypoints_dict`), its set of top-tier opponents
(`D1opponents_dict`) and the games-played count per opponent pair
(`numplayed_dict`); the loop then only consumes those tables.  The
embedding takes them as parameters: `D1` the rated team ids, `opp` the
per-team opponent sets, `np` the pair game counts, `vp` the victory
points.  Ratings are snapshots `Nat → ℚ`; the loop's synchronous update
builds each new snapshot entirely from the previous one, exactly as the
source reads `krachratings` while writing `newkrachratings`. -/

/-- The denominator of the update for team `t`:
`sum(numplayed[{team, opponent}]/(krachratings[team]+krachratings[opponent]) for opponent in D1opponents[team])`. -/
def jacobiDenom (opp : Nat → Finset Nat) (np : Nat → Nat → ℚ) (r : Nat → ℚ) (t : Nat) : ℚ :=
  ∑ o in opp t, np t o / (r t + r o)

/-- One pass of the `while` loop over `D1teams`: every rated team gets
`victorypoints[t] / jacobiDenom` computed from the PREVIOUS snapshot;
ids outside the rated set keep their value. -/
def krachStep (D1 : Finset Nat) (opp : Nat → Finset Nat) (np : Nat → Nat → ℚ)
    (vp : Nat → ℚ) (r : Nat → ℚ) : Nat → ℚ :=
  fun t => if t ∈ D1 then vp t / jacobiDenom opp np r t else r t

/-- The rating snapshot after `n` loop iterations, starting from the
initial table (`{teamid: 100.0}` in the source). -/
def krachIter (D1 : Finset Nat) (opp : Nat → Finset Nat) (np : Nat → Nat → ℚ)
    (vp r0 : Nat → ℚ) : ℕ → Nat → ℚ
  | 0 => r0
  | n + 1 => krachStep D1 opp np vp (krachIter D1 opp np vp r0 n)

/-- The loop's `delta` after iteration `n`:
`sum of abs(newkrachratings[t] - krachratings[t])` over the rated teams. -/
def krachDelta (D1 : Finset Nat) (opp : Nat → Finset Nat) (np : Nat → Nat → ℚ)
    (vp r0 : Nat → ℚ) (n : ℕ) : ℚ :=
  ∑ t in D1, |krachIter D1 opp np vp r0 (n+1) t - krachIter D1 opp np vp r0 n t|

/-- The loop's only way out: `delta < goaldelta*gmean(krachratings)`.
The geometric-mean factor is abstracted as an arbitrary sequence
`gm : ℕ → ℚ` (its value never matters for the claims proved here). -/
def krachConverged (D1 : Finset Nat) (opp : Nat → Finset Nat) (np : Nat → Nat → ℚ)
    (vp r0 : Nat → ℚ) (goaldelta : ℚ) (gm : ℕ → ℚ) (n : ℕ) : Prop :=
  krachDelta D1 opp np vp r0 n < goaldelta * gm n

/-- The KRACH residual of a rating snapshot at team `t`:
`rating[t] * sum(gamesPlayed(t,o)/(rating[t]+rating[o]))`, the quantity
that must match the victory points at a fixed point. -/
def krachResidual (opp : Nat → Finset Nat) (np : Nat → Nat → ℚ)
    (r : Nat → ℚ) (t : Nat) : ℚ :=
  r t * jacobiDenom opp np r t

/-- A two-team rated field. -/
def pairD1 : Finset Nat := {1, 2}

/-- Each of the two teams opposes the other. -/
def pairOpp : Nat → Finset Nat := fun x => if x = 1 then {2} else {1}

/-- One game played between every pair. -/
def oneNp : Nat → Nat → ℚ := fun _ _ => 1

/-- Victory points 1/2 for everyone. -/
def halfVp : Nat → ℚ := fun _ => 1/2

/-- The initial rating table `{teamid: 100.0}`. -/
def hundredR0 : Nat → ℚ := fun _ => 100

/-- A geometric-mean sequence for the convergence test. -/
def oneGm : ℕ → ℚ := fun _ => 1

/-- Claim C3, counterexample: calling `addgame` on a team that is not a
party to the game does raise the invariant-violation error (flag
`true`), but the team's state is NOT left unchanged — the game has
already been added to `games` (the source mutates before it checks).
Here `bystander.games` goes from `∅` to `{gameParty12}` even though the
error fires. -/
theorem addgame_error_still_mutates :
    (bystander.addgame gameParty12).2 = true
    ∧ (bystander.addgame gameParty12).1.games = {gameParty12}
    ∧ bystander.games = ∅ := by
  refine ⟨rfl, rfl, rfl⟩

/-- Claim C3 (amended): `addgame` always inserts the game into `games`
(also on the error path); it raises the invariant-violation error iff
the team is not one of the game's two participants, and in that error
case the wins/losses partition is untouched; when the team is a
participant it classifies the game into `wins` exactly when
`Game.winner` is the team itself, and into `losses` otherwise. -/
theorem addgame_behavior_amended (t : Team) (g : Game) :
    (t.addgame g).1.games = insert g t.games
    ∧ (t.addgame g).2 = !(decide (t.teamid = g.hometeam ∨ t.teamid = g.awayteam))
    ∧ (t.addgame g).1.wins =
        (if (t.teamid = g.hometeam ∨ t.teamid = g.awayteam) ∧ g.winner = some t.teamid
         then insert g t.wins else t.wins)
    ∧ (t.addgame g).1.losses =
        (if (t.teamid = g.hometeam ∨ t.teamid = g.awayteam) ∧ ¬ g.winner = some t.teamid
         then insert g t.losses else t.losses) := by
  unfold Team.addgame
  by_cases hpart : t.teamid = g.hometeam ∨ t.teamid = g.awayteam
  · by_cases hw : g.winner = some t.teamid
    · simp [hpart, hw]
    · simp [hpart, hw]
  · simp [hpart]

/-- Claim C3 amended, witness: on the participant side, team 1 adding the
decided game it won classifies it as a win and raises no error. -/
theorem addgame_behavior_amended_witness :
    (teamOne.addgame gameParty12).1.games = insert gameParty12 teamOne.games
    ∧ (teamOne.addgame gameParty12).2 =
        !(decide (teamOne.teamid = gameParty12.hometeam ∨ teamOne.teamid = gameParty12.awayteam))
    ∧ (teamOne.addgame gameParty12).1.wins =
        (if (teamOne.teamid = gameParty12.hometeam ∨ teamOne.teamid = gameParty12.awayteam)
            ∧ gameParty12.winner = some teamOne.teamid
         then insert gameParty12 teamOne.wins else teamOne.wins)
    ∧ (teamOne.addgame gameParty12).1.losses =
        (if (teamOne.teamid = gameParty12.hometeam ∨ teamOne.teamid = gameParty12.awayteam)
            ∧ ¬ gameParty12.winner = some teamOne.teamid
         then insert gameParty12 teamOne.losses else teamOne.losses) :=
  addgame_behavior_amended teamOne gameParty12

/-- Claim C10: a tied game (`homescore = awayscore`, so `Game.winner`
returns no team) added by a participant succeeds without error, is added
to `games`, and lands in the loss set `winslosses[1]` (the source's
`else` branch), leaving `wins` untouched; such a game is excluded by the
upstream ties-cleaning filter (`keepDecided`). -/
theorem addgame_tie_counts_as_loss (t : Team) (g : Game)
    (hpart : t.teamid = g.hometeam ∨ t.teamid = g.awayteam)
    (htie : g.homescore = g.awayscore) :
    (t.addgame g).2 = false
    ∧ (t.addgame g).1.games = insert g t.games
    ∧ (t.addgame g).1.wins = t.wins
    ∧ (t.addgame g).1.losses = insert g t.losses
    ∧ keepDecided g = false := by
  have hwin : g.winner = none := by
    unfold Game.winner
    simp [htie]
  unfold Team.addgame keepDecided
  simp [hpart, hwin]

/-- Claim C10, witness: team 1 adds the 3–3 tie; it succeeds, the game
joins `games` and `losses`, and the ties filter rejects the game. -/
theorem addgame_tie_counts_as_loss_witness :
    (teamOne.teamid = tiedGame12.hometeam ∨ teamOne.teamid = tiedGame12.awayteam)
    ∧ tiedGame12.homescore = tiedGame12.awayscore
    ∧ ((teamOne.addgame tiedGame12).2 = false
       ∧ (teamOne.addgame tiedGame12).1.games = insert tiedGame12 teamOne.games
       ∧ (teamOne.addgame tiedGame12).1.wins = teamOne.wins
       ∧ (teamOne.addgame tiedGame12).1.losses = insert tiedGame12 teamOne.losses
       ∧ keepDecided tiedGame12 = false) :=
  ⟨Or.inl rfl, rfl, addgame_tie_counts_as_loss teamOne tiedGame12 (Or.inl rfl) rfl⟩

lemma addgame_fst_fresh (t : Team) (g : Game) :
    freshTeam (t.addgame g).1 = freshTeam t := by
  unfold Team.addgame freshTeam
  by_cases hpart : t.teamid = g.hometeam ∨ t.teamid = g.awayteam
  · by_cases hw : g.winner = some t.teamid
    · simp [hpart, hw]
    · simp [hpart, hw]
  · simp [hpart]

lemma addgame_fst_teamid (t : Team) (g : Game) :
    (t.addgame g).1.teamid = t.teamid := by
  have h := congrArg Team.teamid (addgame_fst_fresh t g)
  exact h

lemma stepGame_map_fresh (ts : List Team) (g : Game) :
    (stepGame ts g).map freshTeam = ts.map freshTeam := by
  unfold stepGame
  rw [List.map_map]
  apply List.map_congr_left
  intro t _
  show freshTeam
      (if (if t.teamid = g.hometeam then (t.addgame g).1 else t).teamid = g.awayteam
       then ((if t.teamid = g.hometeam then (t.addgame g).1 else t).addgame g).1
       else (if t.teamid = g.hometeam then (t.addgame g).1 else t)) = freshTeam t
  by_cases h1 : t.teamid = g.hometeam
  · rw [if_pos h1]
    by_cases h2 : ((t.addgame g).1).teamid = g.awayteam
    · rw [if_pos h2, addgame_fst_fresh, addgame_fst_fresh]
    · rw [if_neg h2, addgame_fst_fresh]
  · rw [if_neg h1]
    by_cases h2 : t.teamid = g.awayteam
    · rw [if_pos h2, addgame_fst_fresh]
    · rw [if_neg h2]

lemma rebuild_map_fresh (gs : List Game) :
    ∀ ts : List Team, (rebuild ts gs).map freshTeam = ts.map freshTeam := by
  induction gs with
  | nil => intro ts; rfl
  | cons g gs ih =>
      intro ts
      show (rebuild (stepGame ts g) gs).map freshTeam = ts.map freshTeam
      rw [ih (stepGame ts g), stepGame_map_fresh]

lemma statics_fresh (t : Team) : statics (freshTeam t) = statics t := rfl

lemma map_statics_of_map_fresh {l1 l2 : List Team}
    (h : l1.map freshTeam = l2.map freshTeam) :
    l1.map statics = l2.map statics := by
  have h2 := congrArg (List.map statics) h
  rw [List.map_map, List.map_map] at h2
  have hc : statics ∘ freshTeam = statics := by
    funext t; exact statics_fresh t
  rwa [hc] at h2

lemma rebuild_map_statics (gs : List Game) (ts : List Team) :
    (rebuild ts gs).map statics = ts.map statics :=
  map_statics_of_map_fresh (rebuild_map_fresh gs ts)

lemma fresh_fresh (t : Team) : freshTeam (freshTeam t) = freshTeam t := rfl

/-- Claim C4, counterexample: after `cleannonD1` on `mixedTierGraph` the
output still contains team 1 even though its game set is empty — the
source never drops gameless teams in this transform, contradicting the
claim that "teams left with an empty game set are dropped". -/
theorem cleannonD1_retains_gameless_team :
    (cleannonD1 mixedTierGraph).games = []
    ∧ (cleannonD1 mixedTierGraph).teams = [⟨1, "A", true, none, ∅, ∅, ∅⟩]
    ∧ (⟨1, "A", true, none, ∅, ∅, ∅⟩ : Team).games = ∅ := by
  refine ⟨by decide, by decide, rfl⟩

/-- Claim C4 (amended): in the output of `cleannonD1` every remaining
game has both participants flagged top-tier (per the input team table),
but gameless teams are NOT dropped: the output team table carries
exactly the static records of all top-tier input teams, with or without
games. -/
theorem cleannonD1_amended (G : Graph) :
    ((cleannonD1 G).games.all
        (fun g => isd1Of G.teams g.hometeam && isd1Of G.teams g.awayteam)) = true
    ∧ (cleannonD1 G).teams.map statics
        = (G.teams.filter (fun t => t.isd1)).map statics := by
  constructor
  · rw [List.all_eq_true]
    intro g hg
    have hmem : g ∈ G.games ∧ keepGameNonD1 G.teams g = true := by
      simpa [cleannonD1, List.mem_filter] using hg
    have hkeep := hmem.2
    unfold keepGameNonD1 at hkeep
    rcases Nat.lt_trichotomy g.awayscore g.homescore with hlt | heq | hgt
    · have hw : g.winner = some g.hometeam := by
        unfold Game.winner; simp [hlt]
      have hl : g.loser = some g.awayteam := by
        unfold Game.loser; simp [hlt]
      rw [hw, hl] at hkeep
      simpa using hkeep
    · have hw : g.winner = none := by
        unfold Game.winner; simp [heq, le_of_eq heq]
      rw [hw] at hkeep
      simp at hkeep
    · have hw : g.winner = some g.awayteam := by
        unfold Game.winner; simp [hgt, Nat.le_of_lt hgt, Nat.not_lt.mpr (Nat.le_of_lt hgt)]
      have hl : g.loser = some g.hometeam := by
        unfold Game.loser; simp [hgt, Nat.le_of_lt hgt, Nat.not_lt.mpr (Nat.le_of_lt hgt)]
      rw [hw, hl] at hkeep
      simp only [Bool.and_eq_true] at hkeep ⊢
      exact ⟨hkeep.2, hkeep.1⟩
  · show (rebuild ((G.teams.filter (fun t => t.isd1)).map freshTeam) _).map statics = _
    rw [rebuild_map_statics, List.map_map]
    have hc : statics ∘ freshTeam = statics := by
      funext t; exact statics_fresh t
    rw [hc]

/-- Claim C5: applying the same time-window transform twice with the same
bound returns a graph equal to applying it once — in fact equal as a
whole structure (team records including id, game records including
scores), for both the `since` (`cleanbeforetime`) and `before`
(`cleanaftertime`) variants. -/
theorem cleantime_idempotent (b : Int) (G : Graph) :
    cleanbeforetime b (cleanbeforetime b G) = cleanbeforetime b G
    ∧ cleanaftertime b (cleanaftertime b G) = cleanaftertime b G := by
  have hfresh : ∀ ts : List Team, ∀ gs : List Game,
      (rebuild ts gs).map freshTeam = ts.map freshTeam := fun ts gs => rebuild_map_fresh gs ts
  constructor
  · unfold cleanbeforetime
    have hfilter : ∀ l : List Game, ∀ p : Game → Bool, (l.filter p).filter p = l.filter p := by
      intro l p
      rw [List.filter_eq_self]
      intro a ha
      exact (List.mem_filter.mp ha).2
    simp only
    congr 1
    · rw [hfilter]
      congr 1
      rw [hfresh, List.map_map]
      have : freshTeam ∘ freshTeam = freshTeam := by
        funext t; exact fresh_fresh t
      rw [this]
    · rw [hfilter]
  · unfold cleanaftertime
    have hfilter : ∀ l : List Game, ∀ p : Game → Bool, (l.filter p).filter p = l.filter p := by
      intro l p
      rw [List.filter_eq_self]
      intro a ha
      exact (List.mem_filter.mp ha).2
    simp only
    congr 1
    · rw [hfilter]
      congr 1
      rw [hfresh, List.map_map]
      have : freshTeam ∘ freshTeam = freshTeam := by
        funext t; exact fresh_fresh t
      rw [this]
    · rw [hfilter]

/-- Claim C6: the venue-weight table of the claim does not hold.  For a
team whose one top-tier win is a neutral-site game in which it is the
designated home team, the source counts that game twice (once as a
neutral win, weight 1.0, and once as a home win, weight 0.6, because
the reassigned `D1homewins` ignores `neutralsite`), giving
1.6/(1.6+0.6) = 8/11 instead of the per-venue 1.0/(1.0+0.6) = 5/8 that
the spec's weights yield.  The faithful spec-side definition
`specD1weightedwinpct` returns 5/8 on the same input. -/
theorem D1weightedwinpct_neutral_home_double_count :
    Team.D1weightedwinpct allD1 weightedTeam = 8/11
    ∧ specD1weightedwinpct allD1 weightedTeam = 5/8
    ∧ (5/8 : ℚ) < 8/11 := by
  have hw : Team.D1wins allD1 weightedTeam = {neutralHomeWin} := by decide
  have hl : Team.D1losses allD1 weightedTeam = {roadLoss} := by decide
  refine ⟨?_, ?_, by norm_num⟩
  · unfold Team.D1weightedwinpct
    rw [hw, hl]
    rw [if_neg (by decide)]
    simp only [Finset.filter_singleton]
    norm_num [neutralHomeWin, roadLoss, weightedTeam]
  · unfold specD1weightedwinpct
    rw [hw, hl]
    rw [if_neg (by decide)]
    simp only [Finset.filter_singleton]
    norm_num [neutralHomeWin, roadLoss, weightedTeam]

/-- Claim C8: `OWP` signals the explicit insufficient-data error exactly
when the team has zero top-tier opponents (never a silent 0 or NaN);
`OOWP` signals it when the opponent list is empty or any inner `OWP`
raised; and on at least one opponent, `OWP` is the arithmetic mean over
the per-game top-tier opponents of their win percentage computed with
games against this team excluded. -/
theorem OWP_OOWP_error_signaling (d1 : Nat → Bool) (env : Nat → Team) (t : Team) :
    (Team.OWP d1 env t = none ↔ t.D1opponents d1 = 0)
    ∧ (Team.OOWP d1 env t = none ↔
        (t.D1opponents d1 = 0
         ∨ none ∈ (t.D1opponents d1).map (fun o => Team.OWP d1 env (env o))))
    ∧ Team.OWP d1 env t =
        (if t.D1opponents d1 = 0 then none
         else some ((((t.D1opponents d1).map
            (fun o => (env o).D1winpctwithoutopponent d1 t.teamid)).sum)
            / (Multiset.card (t.D1opponents d1) : ℚ))) := by
  refine ⟨?_, ?_, ?_⟩
  · unfold Team.OWP pymean
    simp only [Multiset.map_eq_zero]
    split_ifs with h
    · simp [h]
    · simp [h]
  · unfold Team.OOWP msequence
    by_cases hn : none ∈ (t.D1opponents d1).map (fun o => Team.OWP d1 env (env o))
    · simp [hn]
    · rw [if_neg hn]
      show pymean _ = none ↔ _
      unfold pymean
      by_cases hz : ((t.D1opponents d1).map
          (fun o => Team.OWP d1 env (env o))).filterMap id = 0
      · rw [if_pos hz]
        constructor
        · intro _
          left
          by_contra hne
          have hm : (t.D1opponents d1).map (fun o => Team.OWP d1 env (env o)) ≠ 0 := by
            simpa [Multiset.map_eq_zero] using hne
          obtain ⟨x, hx⟩ := Multiset.exists_mem_of_ne_zero hm
          rcases x with _ | a
          · exact hn hx
          · have ha : a ∈ ((t.D1opponents d1).map
                (fun o => Team.OWP d1 env (env o))).filterMap id :=
              (Multiset.mem_filterMap _ _).mpr ⟨some a, hx, rfl⟩
            rw [hz] at ha
            exact absurd ha (Multiset.not_mem_zero a)
        · intro _; rfl
      · rw [if_neg hz]
        constructor
        · intro h; exact absurd h (by simp)
        · rintro (h0 | hmem)
          · exact absurd (by simp [h0] : ((t.D1opponents d1).map
              (fun o => Team.OWP d1 env (env o))).filterMap id = 0) hz
          · exact absurd hmem hn
  · unfold Team.OWP pymean
    simp only [Multiset.map_eq_zero, Multiset.card_map]

lemma sosEntries_eq_map_opponents (krachratings : Nat → ℚ) (d1 : Nat → Bool) (t : Team) :
    t.sosEntries krachratings d1 = (t.D1opponents d1).map krachratings := by
  unfold Team.sosEntries Team.D1opponents
  rw [Multiset.map_filterMap]
  congr 1
  funext g
  cases t.opponentId g with
  | none => rfl
  | some o =>
      show (if d1 o = true then some (krachratings o) else none)
          = (if d1 o = true then some o else none).map krachratings
      by_cases h : d1 o = true
      · rw [if_pos h, if_pos h]; rfl
      · rw [if_neg h, if_neg h]; rfl

/-- Claim C7, counterexample: `sos` counts an opponent once per game
played, not once per distinct opponent.  With two games against the
rating-4 opponent and one against the rating-1 opponent, `sos` returns
the cube root of 4·4·1 = 16, strictly greater than the distinct-opponent
geometric mean sqrt(4·1) = 2 of the claim (computed by `sosSpec`). -/
theorem sos_counts_repeat_opponents :
    sos allD1 ratingsFourOne scheduleTeam = (16 : ℝ) ^ ((3 : ℝ)⁻¹)
    ∧ sosSpec allD1 ratingsFourOne scheduleTeam = 2
    ∧ (2 : ℝ) < (16 : ℝ) ^ ((3 : ℝ)⁻¹) := by
  have h8 : (2 : ℝ) = (8 : ℝ) ^ ((3 : ℝ)⁻¹) := by
    have h2 : (8 : ℝ) = (2 : ℝ) ^ ((3 : ℕ) : ℝ) := by
      rw [Real.rpow_natCast]; norm_num
    rw [h2, ← Real.rpow_mul (by norm_num : (0:ℝ) ≤ 2)]
    norm_num
  refine ⟨?_, ?_, ?_⟩
  · have he : scheduleTeam.sosEntries ratingsFourOne allD1 = {4, 4, 1} := by decide
    unfold sos gmeanQ
    rw [he]
    have hm : (({4, 4, 1} : Multiset ℚ).map (fun q => (q : ℝ))).prod = 16 := by
      simp
      norm_num
    rw [hm]
    norm_num
  · have ho : (scheduleTeam.D1oppSet allD1).map ratingsFourOne = {4, 1} := by decide
    unfold sosSpec gmeanQ
    rw [ho]
    have hm : (({4, 1} : Multiset ℚ).map (fun q => (q : ℝ))).prod = 4 := by
      simp
    rw [hm]
    have h4 : (4 : ℝ) = (2 : ℝ) ^ ((2 : ℕ) : ℝ) := by
      rw [Real.rpow_natCast]; norm_num
    rw [show ((Multiset.card ({4, 1} : Multiset ℚ) : ℝ)) = ((2 : ℕ) : ℝ) by norm_num]
    rw [h4, ← Real.rpow_mul (by norm_num : (0:ℝ) ≤ 2)]
    norm_num
  · rw [h8]
    exact Real.rpow_lt_rpow (by norm_num) (by norm_num) (by norm_num)

/-- Claim C7 (amended): `sos` is the geometric mean of top-tier opponent
ratings with each opponent counted once per game played; it agrees with
the claim's distinct-opponent geometric mean exactly in the no-repeat
case, i.e. whenever the team played each top-tier opponent at most
once. -/
theorem sos_distinct_opponents_of_nodup (d1 : Nat → Bool) (krachratings : Nat → ℚ)
    (t : Team) (h : (t.D1opponents d1).Nodup) :
    sos d1 krachratings t = sosSpec d1 krachratings t := by
  unfold sos sosSpec Team.D1oppSet
  rw [Multiset.dedup_eq_self.mpr h, sosEntries_eq_map_opponents]

/-- Claim C7 amended, witness: a team that played each opponent once has
a duplicate-free opponent list, and there `sos` equals the
distinct-opponent geometric mean. -/
theorem sos_distinct_opponents_of_nodup_witness :
    (noRepeatTeam.D1opponents allD1).Nodup
    ∧ sos allD1 ratingsFourOne noRepeatTeam = sosSpec allD1 ratingsFourOne noRepeatTeam :=
  ⟨by decide, sos_distinct_opponents_of_nodup allD1 ratingsFourOne noRepeatTeam (by decide)⟩

/-- Claim C9: for at least two rated teams with strictly positive
ratings, the `rrwp` values average to exactly 1/2 over the field — the
off-diagonal win probabilities pair up as
`r t/(r t + r o) + r o/(r o + r t) = 1`. -/
theorem rrwp_mean_half (ids : Finset Nat) (r : Nat → ℚ)
    (hcard : 2 ≤ ids.card) (hpos : ∀ i ∈ ids, 0 < r i) :
    (∑ t in ids, rrwp ids r t) / (ids.card : ℚ) = 1/2 := by
  have hn2 : (2 : ℚ) ≤ (ids.card : ℚ) := by exact_mod_cast hcard
  have hn0 : (ids.card : ℚ) ≠ 0 := by linarith
  have hn1 : (ids.card : ℚ) - 1 ≠ 0 := by linarith
  have herase : ∀ t, ids.filter (fun o => o ≠ t) = ids.erase t := by
    intro t
    exact Finset.filter_ne' ids t
  -- the double sum of off-diagonal win probabilities
  set T : ℚ := ∑ t in ids, ∑ o in ids.erase t, r t / (r t + r o) with hT
  have hswap : (∑ t in ids, ∑ o in ids.erase t, r o / (r o + r t)) = T := by
    rw [hT]
    exact Finset.sum_comm' (fun x y => by
      simp only [Finset.mem_erase]
      constructor
      · rintro ⟨hx, hyx, hy⟩
        exact ⟨⟨fun h => hyx h.symm, hx⟩, hy⟩
      · rintro ⟨⟨hxy, hx⟩, hy⟩
        exact ⟨hx, fun h => hxy h.symm, hy⟩)
  have hpair : T + T = (ids.card : ℚ) * ((ids.card : ℚ) - 1) := by
    calc T + T
        = T + ∑ t in ids, ∑ o in ids.erase t, r o / (r o + r t) := by rw [hswap]
      _ = ∑ t in ids, ∑ o in ids.erase t,
            (r t / (r t + r o) + r o / (r o + r t)) := by
          rw [hT, ← Finset.sum_add_distrib]
          apply Finset.sum_congr rfl
          intro t _
          rw [← Finset.sum_add_distrib]
      _ = ∑ t in ids, ∑ _o in ids.erase t, (1 : ℚ) := by
          apply Finset.sum_congr rfl
          intro t ht
          apply Finset.sum_congr rfl
          intro o ho
          have hto : 0 < r t := hpos t ht
          have hoo : 0 < r o := hpos o (Finset.mem_of_mem_erase ho)
          have hne : r t + r o ≠ 0 := ne_of_gt (add_pos hto hoo)
          rw [add_comm (r o) (r t), div_add_div_same, div_self hne]
      _ = ∑ t in ids, ((ids.card : ℚ) - 1) := by
          apply Finset.sum_congr rfl
          intro t ht
          rw [Finset.sum_const, Finset.card_erase_of_mem ht, nsmul_eq_mul, mul_one,
            Nat.cast_sub (le_trans one_le_two hcard), Nat.cast_one]
      _ = (ids.card : ℚ) * ((ids.card : ℚ) - 1) := by
          rw [Finset.sum_const, nsmul_eq_mul]
  have hsumr : (∑ t in ids, rrwp ids r t) = T / ((ids.card : ℚ) - 1) := by
    unfold rrwp
    rw [hT, Finset.sum_div]
    apply Finset.sum_congr rfl
    intro t _
    rw [herase]
  rw [hsumr]
  have hTval : T = (ids.card : ℚ) * ((ids.card : ℚ) - 1) / 2 := by linarith
  rw [hTval]
  field_simp
  ring

/-- Claim C9, witness: the three-team field {1, 2, 3} with positive
ratings (team 2 rated 4, the others 1) has `rrwp` mean exactly 1/2. -/
theorem rrwp_mean_half_witness :
    (∑ t in ({1, 2, 3} : Finset Nat), rrwp {1, 2, 3} ratingsFourOne t)
      / ((({1, 2, 3} : Finset Nat).card : ℚ)) = 1/2 :=
  rrwp_mean_half {1, 2, 3} ratingsFourOne (by decide)
    (by
      intro i hi
      fin_cases hi <;> norm_num [ratingsFourOne])

lemma jacobiDenom_pos (opp : Nat → Finset Nat) (np : Nat → Nat → ℚ)
    (r : Nat → ℚ) (x : Nat) (hr : ∀ y, 0 < r y) (hnp0 : ∀ a b, 0 ≤ np a b)
    (hx : ∃ o ∈ opp x, 0 < np x o) : 0 < jacobiDenom opp np r x := by
  obtain ⟨o, ho, honz⟩ := hx
  unfold jacobiDenom
  apply Finset.sum_pos'
  · intro i _
    exact div_nonneg (hnp0 x i) (le_of_lt (add_pos (hr x) (hr i)))
  · exact ⟨o, ho, div_pos honz (add_pos (hr x) (hr o))⟩

lemma krachIter_pos (D1 : Finset Nat) (opp : Nat → Finset Nat) (np : Nat → Nat → ℚ)
    (vp r0 : Nat → ℚ) (h0 : ∀ x, 0 < r0 x) (hvp : ∀ x ∈ D1, 0 < vp x)
    (hnp0 : ∀ a b, 0 ≤ np a b) (hnp1 : ∀ x ∈ D1, ∃ o ∈ opp x, 0 < np x o) :
    ∀ n x, 0 < krachIter D1 opp np vp r0 n x := by
  intro n
  induction n with
  | zero => exact h0
  | succ n ih =>
      intro x
      show 0 < krachStep D1 opp np vp (krachIter D1 opp np vp r0 n) x
      unfold krachStep
      by_cases hx : x ∈ D1
      · rw [if_pos hx]
        exact div_pos (hvp x hx) (jacobiDenom_pos opp np _ x ih hnp0 (hnp1 x hx))
      · rw [if_neg hx]
        exact ih x

lemma krachResidual_scale (opp : Nat → Finset Nat) (np : Nat → Nat → ℚ)
    (r : Nat → ℚ) (t : Nat) (c : ℚ) (hc : c ≠ 0) :
    krachResidual opp np (fun x => c * r x) t = krachResidual opp np r t := by
  unfold krachResidual jacobiDenom
  have hterm : ∀ o, np t o / (c * r t + c * r o) = np t o / (r t + r o) / c := by
    intro o
    rw [← mul_add, div_mul_eq_div_div_swap]
  rw [Finset.sum_congr rfl (fun o _ => hterm o), ← Finset.sum_div]
  field_simp
  ring

/-- Claim C2: the fixed-point loop of `calckrachratings` is `while True`
with `break` only on the convergence test — there is no iteration cap
(`iterations` is counted but never checked).  With the configurable
threshold `goaldelta` set to `0` the exit test `delta < 0*gmean` is
unsatisfiable at every iteration (delta is a sum of absolute values),
whatever the dataset and whatever value the geometric mean takes: the
solver never reports a "did not converge" failure, it simply never
terminates. -/
theorem krach_goaldelta_zero_never_converges (D1 : Finset Nat)
    (opp : Nat → Finset Nat) (np : Nat → Nat → ℚ) (vp r0 : Nat → ℚ)
    (gm : ℕ → ℚ) (n : ℕ) :
    krachConverged D1 opp np vp r0 0 gm n ↔ False := by
  unfold krachConverged
  simp only [zero_mul, iff_false, not_lt]
  exact Finset.sum_nonneg (fun i _ => abs_nonneg _)

/-- Claim C1: when the loop exits through the convergence test after
pass `n+1` (hypothesis `hconv`), the returned pre-calibration snapshot
`krachIter (n+1)` satisfies the KRACH fixed-point property: (a) against
the previous snapshot the residual equals the victory points EXACTLY
(that is the update rule solved for `vp t`); (b) the residual is
invariant under the uniform rescaling `v*100/adj` that calibration
applies, so the returned calibrated ratings satisfy whatever the
pre-calibration ones do; (c) the residual of the returned snapshot
itself deviates from the victory points by at most the configured
tolerance `goaldelta*gmean` scaled by the explicit pairwise factor
`2·rating[t]·Σ np/((r'[t]+r'[o])(r[t]+r[o]))`. -/
theorem krach_fixed_point_residual (D1 : Finset Nat) (opp : Nat → Finset Nat)
    (np : Nat → Nat → ℚ) (vp r0 : Nat → ℚ) (goaldelta : ℚ) (gm : ℕ → ℚ)
    (n : ℕ) (t : Nat)
    (h0 : ∀ x, 0 < r0 x) (hvp : ∀ x ∈ D1, 0 < vp x)
    (hnp0 : ∀ a b, 0 ≤ np a b) (hnp1 : ∀ x ∈ D1, ∃ o ∈ opp x, 0 < np x o)
    (hconv : krachConverged D1 opp np vp r0 goaldelta gm n) (ht : t ∈ D1) :
    krachIter D1 opp np vp r0 (n+1) t
        * jacobiDenom opp np (krachIter D1 opp np vp r0 n) t = vp t
    ∧ (∀ c : ℚ, c ≠ 0 →
        krachResidual opp np (fun x => c * krachIter D1 opp np vp r0 (n+1) x) t
          = krachResidual opp np (krachIter D1 opp np vp r0 (n+1)) t)
    ∧ |krachResidual opp np (krachIter D1 opp np vp r0 (n+1)) t - vp t|
        ≤ krachIter D1 opp np vp r0 (n+1) t
          * ∑ o in opp t, np t o * (2 * (goaldelta * gm n))
              / ((krachIter D1 opp np vp r0 (n+1) t + krachIter D1 opp np vp r0 (n+1) o)
                 * (krachIter D1 opp np vp r0 n t + krachIter D1 opp np vp r0 n o)) := by
  have hrpos : ∀ x, 0 < krachIter D1 opp np vp r0 n x :=
    krachIter_pos D1 opp np vp r0 h0 hvp hnp0 hnp1 n
  have hr'pos : ∀ x, 0 < krachIter D1 opp np vp r0 (n+1) x :=
    krachIter_pos D1 opp np vp r0 h0 hvp hnp0 hnp1 (n+1)
  have hdpos : 0 < jacobiDenom opp np (krachIter D1 opp np vp r0 n) t :=
    jacobiDenom_pos opp np _ t hrpos hnp0 (hnp1 t ht)
  have hstept : krachIter D1 opp np vp r0 (n+1) t
      = vp t / jacobiDenom opp np (krachIter D1 opp np vp r0 n) t := by
    show krachStep D1 opp np vp (krachIter D1 opp np vp r0 n) t = _
    unfold krachStep
    rw [if_pos ht]
  have ha : krachIter D1 opp np vp r0 (n+1) t
      * jacobiDenom opp np (krachIter D1 opp np vp r0 n) t = vp t := by
    rw [hstept]
    exact div_mul_cancel₀ (vp t) (ne_of_gt hdpos)
  refine ⟨ha, fun c hc => krachResidual_scale opp np _ t c hc, ?_⟩
  unfold krachConverged at hconv
  have hdelta_nonneg : 0 ≤ krachDelta D1 opp np vp r0 n :=
    Finset.sum_nonneg (fun i _ => abs_nonneg _)
  have htolpos : 0 ≤ goaldelta * gm n := le_of_lt (lt_of_le_of_lt hdelta_nonneg hconv)
  have hper : ∀ x, |krachIter D1 opp np vp r0 (n+1) x - krachIter D1 opp np vp r0 n x|
      ≤ goaldelta * gm n := by
    intro x
    by_cases hx : x ∈ D1
    · have hle : |krachIter D1 opp np vp r0 (n+1) x - krachIter D1 opp np vp r0 n x|
          ≤ krachDelta D1 opp np vp r0 n :=
        Finset.single_le_sum (f := fun y =>
          |krachIter D1 opp np vp r0 (n+1) y - krachIter D1 opp np vp r0 n y|)
          (fun i _ => abs_nonneg _) hx
      exact le_trans hle (le_of_lt hconv)
    · have hfix : krachIter D1 opp np vp r0 (n+1) x = krachIter D1 opp np vp r0 n x := by
        show krachStep D1 opp np vp (krachIter D1 opp np vp r0 n) x = _
        unfold krachStep
        rw [if_neg hx]
      rw [hfix, sub_self, abs_zero]
      exact htolpos
  have hvp_eq : vp t = krachIter D1 opp np vp r0 (n+1) t
      * jacobiDenom opp np (krachIter D1 opp np vp r0 n) t := ha.symm
  calc |krachResidual opp np (krachIter D1 opp np vp r0 (n+1)) t - vp t|
      = |krachIter D1 opp np vp r0 (n+1) t
            * jacobiDenom opp np (krachIter D1 opp np vp r0 (n+1)) t
         - krachIter D1 opp np vp r0 (n+1) t
            * jacobiDenom opp np (krachIter D1 opp np vp r0 n) t| := by
        unfold krachResidual
        rw [hvp_eq]
    _ = krachIter D1 opp np vp r0 (n+1) t
          * |jacobiDenom opp np (krachIter D1 opp np vp r0 (n+1)) t
             - jacobiDenom opp np (krachIter D1 opp np vp r0 n) t| := by
        rw [← mul_sub, abs_mul, abs_of_pos (hr'pos t)]
    _ ≤ krachIter D1 opp np vp r0 (n+1) t
          * ∑ o in opp t,
              |np t o / (krachIter D1 opp np vp r0 (n+1) t + krachIter D1 opp np vp r0 (n+1) o)
               - np t o / (krachIter D1 opp np vp r0 n t + krachIter D1 opp np vp r0 n o)| := by
        apply mul_le_mul_of_nonneg_left ?_ (le_of_lt (hr'pos t))
        unfold jacobiDenom
        rw [← Finset.sum_sub_distrib]
        exact Finset.abs_sum_le_sum_abs _ _
    _ ≤ krachIter D1 opp np vp r0 (n+1) t
          * ∑ o in opp t, np t o * (2 * (goaldelta * gm n))
              / ((krachIter D1 opp np vp r0 (n+1) t + krachIter D1 opp np vp r0 (n+1) o)
                 * (krachIter D1 opp np vp r0 n t + krachIter D1 opp np vp r0 n o)) := by
        apply mul_le_mul_of_nonneg_left ?_ (le_of_lt (hr'pos t))
        apply Finset.sum_le_sum
        intro o _
        have hA : 0 < krachIter D1 opp np vp r0 (n+1) t + krachIter D1 opp np vp r0 (n+1) o :=
          add_pos (hr'pos t) (hr'pos o)
        have hB : 0 < krachIter D1 opp np vp r0 n t + krachIter D1 opp np vp r0 n o :=
          add_pos (hrpos t) (hrpos o)
        have hsub : np t o / (krachIter D1 opp np vp r0 (n+1) t + krachIter D1 opp np vp r0 (n+1) o)
            - np t o / (krachIter D1 opp np vp r0 n t + krachIter D1 opp np vp r0 n o)
            = np t o * ((krachIter D1 opp np vp r0 n t + krachIter D1 opp np vp r0 n o)
                - (krachIter D1 opp np vp r0 (n+1) t + krachIter D1 opp np vp r0 (n+1) o))
              / ((krachIter D1 opp np vp r0 (n+1) t + krachIter D1 opp np vp r0 (n+1) o)
                 * (krachIter D1 opp np vp r0 n t + krachIter D1 opp np vp r0 n o)) := by
          field_simp
          ring
        rw [hsub, abs_div, abs_mul, abs_of_nonneg (hnp0 t o), abs_of_pos (mul_pos hA hB)]
        apply (div_le_div_iff_of_pos_right (mul_pos hA hB)).mpr
        apply mul_le_mul_of_nonneg_left ?_ (hnp0 t o)
        have hsplit : (krachIter D1 opp np vp r0 n t + krachIter D1 opp np vp r0 n o)
            - (krachIter D1 opp np vp r0 (n+1) t + krachIter D1 opp np vp r0 (n+1) o)
            = (krachIter D1 opp np vp r0 n t - krachIter D1 opp np vp r0 (n+1) t)
              + (krachIter D1 opp np vp r0 n o - krachIter D1 opp np vp r0 (n+1) o) := by
          ring
        rw [hsplit]
        calc |(krachIter D1 opp np vp r0 n t - krachIter D1 opp np vp r0 (n+1) t)
               + (krachIter D1 opp np vp r0 n o - krachIter D1 opp np vp r0 (n+1) o)|
            ≤ |krachIter D1 opp np vp r0 n t - krachIter D1 opp np vp r0 (n+1) t|
              + |krachIter D1 opp np vp r0 n o - krachIter D1 opp np vp r0 (n+1) o| :=
              abs_add _ _
          _ = |krachIter D1 opp np vp r0 (n+1) t - krachIter D1 opp np vp r0 n t|
              + |krachIter D1 opp np vp r0 (n+1) o - krachIter D1 opp np vp r0 n o| := by
              rw [abs_sub_comm, abs_sub_comm (krachIter D1 opp np vp r0 n o)]
          _ ≤ goaldelta * gm n + goaldelta * gm n := add_le_add (hper t) (hper o)
          _ = 2 * (goaldelta * gm n) := by ring

lemma pair_first_step_fixed :
    ∀ x, krachIter pairD1 pairOpp oneNp halfVp hundredR0 1 x = hundredR0 x := by
  intro x
  show krachStep pairD1 pairOpp oneNp halfVp hundredR0 x = hundredR0 x
  unfold krachStep
  by_cases hx : x ∈ pairD1
  · rw [if_pos hx]
    have hd : jacobiDenom pairOpp oneNp hundredR0 x = 1/200 := by
      unfold jacobiDenom pairOpp oneNp hundredR0
      by_cases h1 : x = 1
      · rw [if_pos h1]
        rw [Finset.sum_singleton]
        norm_num
      · rw [if_neg h1]
        rw [Finset.sum_singleton]
        norm_num
    rw [hd]
    unfold halfVp hundredR0
    norm_num
  · rw [if_neg hx]

/-- Claim C1, witness: on the symmetric two-team field with one game,
victory points 1/2 each and the initial table 100, the first pass maps
100 back to 100, so `delta = 0` and the loop exits with
`goaldelta = 1`; the theorem then gives the exact residual identity
`100 * (1/200) = 1/2` for team 1. -/
theorem krach_fixed_point_residual_witness :
    krachConverged pairD1 pairOpp oneNp halfVp hundredR0 1 oneGm 0
    ∧ krachIter pairD1 pairOpp oneNp halfVp hundredR0 1 1
        * jacobiDenom pairOpp oneNp (krachIter pairD1 pairOpp oneNp halfVp hundredR0 0) 1
      = halfVp 1 := by
  have hconv : krachConverged pairD1 pairOpp oneNp halfVp hundredR0 1 oneGm 0 := by
    unfold krachConverged
    have hd : krachDelta pairD1 pairOpp oneNp halfVp hundredR0 0 = 0 := by
      unfold krachDelta
      apply Finset.sum_eq_zero
      intro x _
      rw [pair_first_step_fixed x]
      show |hundredR0 x - hundredR0 x| = 0
      rw [sub_self, abs_zero]
    rw [hd]
    unfold oneGm
    norm_num
  refine ⟨hconv, ?_⟩
  refine (krach_fixed_point_residual pairD1 pairOpp oneNp halfVp hundredR0 1 oneGm 0 1
    (fun x => by unfold hundredR0; norm_num)
    (fun x _ => by unfold halfVp; norm_num)
    (fun a b => by unfold oneNp; norm_num)
    (fun x _ => ?_)
    hconv (by decide)).1
  by_cases h1 : x = 1
  · exact ⟨2, by simp [pairOpp, h1], by unfold oneNp; norm_num⟩
  · exact ⟨1, by simp [pairOpp, h1], by unfold oneNp; norm_num⟩

end NCAA

